import Mathlib

/-!
Verification development for the Tiller release-manager core
(manifest sorter, release storage contract, startup configuration,
HTTP gateway handlers).

The repository ships the tests of the manifest sorter
(pkg/tiller/hooks_test.go) and of the Releases storage driver, plus the
server entry point (cmd/tiller/tiller.go) and the generated HTTP gateway.
Where the implementation itself is present (tiller.go, the gateway) the
definitions below embed that code directly; where only the tests are
present (sortManifests, sortByKind, the Releases driver) the definitions
are modelled from the specification, with every point that the shipped
tests pin down made to agree with those tests.
-/

namespace Helm

/-! ## Character-list utilities (Go strings.TrimSpace / strings.Split) -/

/-- Whitespace recognized by trimming (ASCII subset of Go unicode.IsSpace). -/
def isSpaceChar (c : Char) : Bool :=
  c = ' ' || c = '\t' || c = '\n' || c = '\r'

/-- Trim leading whitespace. -/
def trimLeft (cs : List Char) : List Char := cs.dropWhile isSpaceChar

/-- Trim leading and trailing whitespace (Go strings.TrimSpace). -/
def trim (cs : List Char) : List Char :=
  (trimLeft (trimLeft cs).reverse).reverse

def splitCommaAux : List Char → List Char → List (List Char)
  | [], acc => [acc.reverse]
  | c :: rest, acc =>
    if c = ',' then acc.reverse :: splitCommaAux rest []
    else splitCommaAux rest (c :: acc)

/-- Split on commas (Go strings.Split with a comma separator). -/
def splitComma (cs : List Char) : List (List Char) := splitCommaAux cs []

/-- Decimal digit value of a character. -/
def digitVal (c : Char) : Option Nat :=
  if '0' ≤ c ∧ c ≤ '9' then some (c.toNat - '0'.toNat) else none

def parseNatAux : List Char → Nat → Option Nat
  | [], acc => some acc
  | c :: rest, acc =>
    match digitVal c with
    | some d => parseNatAux rest (acc * 10 + d)
    | none => none

/-- Parse a nonempty all-digit string as a natural number. -/
def parseNatDigits (cs : List Char) : Option Nat :=
  match cs with
  | [] => none
  | _ => parseNatAux cs 0

/-- Parse a decimal integer with an optional leading minus sign
(models Go strconv integer parsing on the inputs used here). -/
def parseInt (cs : List Char) : Option Int :=
  match cs with
  | '-' :: rest => (parseNatDigits rest).map (fun n => -(n : Int))
  | _ => (parseNatDigits cs).map (fun n => (n : Int))

/-- Base name of a slash-separated path (Go path.Base on the inputs used here). -/
def baseName (path : List Char) : List Char :=
  (path.reverse.takeWhile (fun c => c ≠ '/')).reverse

def startsWithUnderscore : List Char → Bool
  | [] => false
  | c :: _ => c = '_'

/-! ## Manifest sorter data model

Modelled from the spec (the sorter implementation is not among the shipped
sources; pkg/tiller/hooks_test.go pins its observable behavior). -/

/-- Recognized hook lifecycle events (spec section 3; the release.Hook_Event
values referenced by TestSortManifests). -/
inductive HookEvent
  | preInstall | postInstall | preDelete | postDelete
  | preUpgrade | postUpgrade | preRollback | postRollback
  | crdInstall | releaseTestSuccess | releaseTestFailure
deriving DecidableEq

/-- Recognized hook delete policies (spec section 3). -/
inductive HookDeletePolicy
  | beforeHookCreation | hookSucceeded | hookFailed
deriving DecidableEq

/-- Modelled from the spec: map one comma-separated token of the hook-event
value to a lifecycle event; unrecognized tokens map to none. -/
def eventFromToken (tok : List Char) : Option HookEvent :=
  if tok = "pre-install".data then some .preInstall
  else if tok = "post-install".data then some .postInstall
  else if tok = "pre-delete".data then some .preDelete
  else if tok = "post-delete".data then some .postDelete
  else if tok = "pre-upgrade".data then some .preUpgrade
  else if tok = "post-upgrade".data then some .postUpgrade
  else if tok = "pre-rollback".data then some .preRollback
  else if tok = "post-rollback".data then some .postRollback
  else if tok = "crd-install".data then some .crdInstall
  else if tok = "test-success".data then some .releaseTestSuccess
  else if tok = "test-failure".data then some .releaseTestFailure
  else none

/-- Modelled from the spec: map one token of the hook-delete-policy value to
a delete policy; unrecognized tokens map to none. -/
def deletePolicyFromToken (tok : List Char) : Option HookDeletePolicy :=
  if tok = "before-hook-creation".data then some .beforeHookCreation
  else if tok = "hook-succeeded".data then some .hookSucceeded
  else if tok = "hook-failed".data then some .hookFailed
  else none

/-- The hook-event annotation key. -/
def hookAnno : String := "helm.sh/hook"

/-- The hook-delete-policy annotation key. -/
def hookDeleteAnno : String := "helm.sh/hook-delete-policy"

/-- The hook-delete-timeout annotation key. -/
def hookDeleteTimeoutAnno : String := "helm.sh/hook-delete-timeout"

/-- The hook-weight annotation key. -/
def hookWeightAnno : String := "helm.sh/hook-weight"

/-- Default hook delete timeout, in seconds, used when a delete policy is
present but no explicit timeout annotation is given (the constant
defaultHookDeleteTimeoutInSeconds referenced by
TestSortManifestsHookDeletion; its value is not observable from the shipped
sources, only its role as a fixed constant is). -/
def defaultHookDeleteTimeoutInSeconds : Int := 60

/-- The minimal parsed head of one manifest document (util.SimpleHead):
apiVersion, kind, metadata.name, metadata.annotations. -/
structure SimpleHead where
  apiVersion : String
  kind : String
  name : String
  annotations : List (String × String)
deriving DecidableEq

/-- One split document of a rendered file: its raw text together with the
outcome of parsing its minimal head (none models a YAML parse failure;
parsing itself is external to this model). -/
structure ManifestDoc where
  txt : String
  head : Option SimpleHead
deriving DecidableEq

/-- One rendered input file: its template path and its documents, already
split on document separators. -/
structure InputFile where
  path : String
  docs : List ManifestDoc
deriving DecidableEq

/-- A classified hook (the release.Hook record built by the sorter). -/
structure Hook where
  path : String
  name : String
  kind : String
  manifest : String
  events : List HookEvent
  deletePolicies : List HookDeletePolicy
  deleteTimeout : Int
  weight : Int
deriving DecidableEq

/-- A classified generic (non-hook) manifest (the tiller Manifest record). -/
structure Manifest where
  name : String
  content : String
  head : SimpleHead
deriving DecidableEq

/-- Look up an annotation value by key. -/
def lookupAnn (anns : List (String × String)) (k : String) : Option String :=
  (anns.find? (fun p => p.1 == k)).map Prod.snd

/-- Modelled from the spec: parse the comma-separated hook-event value,
trimming each token and keeping the recognized events in order. -/
def parseHookEvents (v : String) : List HookEvent :=
  (splitComma v.data).filterMap (fun tok => eventFromToken (trim tok))

/-- Modelled from the spec: parse the comma-separated hook-delete-policy
value, keeping the recognized policies in order. -/
def parseHookDeletePolicies (v : String) : List HookDeletePolicy :=
  (splitComma v.data).filterMap (fun tok => deletePolicyFromToken (trim tok))

/-- Modelled from the spec: the hook-weight annotation, an integer tie-break
defaulting to 0 when absent or malformed. -/
def parseHookWeight (anns : List (String × String)) : Int :=
  match lookupAnn anns hookWeightAnno with
  | none => 0
  | some v => (parseInt (trim v.data)).getD 0

/-- Modelled from the spec: classify one surviving document of one file.
Returns ok none when the document is skipped, ok (some x) when it is kept as
a hook or as a generic manifest, and an error for a malformed
hook-delete-timeout value (a fatal parse error for the whole operation).

Points pinned by the shipped tests rather than by the spec text: a document
whose hook annotation yields no recognized event is skipped entirely
(TestSortManifests expects 4 hooks and 2 generic manifests from its
eight-file fixture, which forces the document named third, whose only hook
token is unrecognized, into neither output); the supplied version set does
not drop or fail documents whose apiVersion lies outside it
(TestSortManifestsHookDeletion passes a version set of v1 and v1beta1 yet
expects its apiextensions.k8s.io/v1beta1 document to come back as a hook),
so classification does not consult it. -/
def classifyOne (path : String) (d : ManifestDoc) :
    Except String (Option (Sum Hook Manifest)) :=
  if (trim d.txt.data).isEmpty then .ok none
  else
    match d.head with
    | none => .ok none
    | some sh =>
        match lookupAnn sh.annotations hookAnno with
        | none => .ok (some (.inr ⟨sh.name, d.txt, sh⟩))
        | some hv =>
          let events := parseHookEvents hv
          if events.isEmpty then .ok none
          else
            match lookupAnn sh.annotations hookDeleteAnno with
            | none =>
              .ok (some (.inl ⟨path, sh.name, sh.kind, d.txt, events, [], 0,
                parseHookWeight sh.annotations⟩))
            | some pv =>
              match lookupAnn sh.annotations hookDeleteTimeoutAnno with
              | none =>
                .ok (some (.inl ⟨path, sh.name, sh.kind, d.txt, events,
                  parseHookDeletePolicies pv, defaultHookDeleteTimeoutInSeconds,
                  parseHookWeight sh.annotations⟩))
              | some tv =>
                match parseInt (trim tv.data) with
                | none => .error "malformed hook-delete-timeout value"
                | some t =>
                  .ok (some (.inl ⟨path, sh.name, sh.kind, d.txt, events,
                    parseHookDeletePolicies pv, t, parseHookWeight sh.annotations⟩))

/-- Classify the documents of one file in order, dropping skipped documents
and propagating a fatal parse error. -/
def classifyDocs (path : String) :
    List ManifestDoc → Except String (List (Sum Hook Manifest))
  | [] => .ok []
  | d :: rest =>
    match classifyOne path d with
    | .error e => .error e
    | .ok none => classifyDocs path rest
    | .ok (some x) =>
      match classifyDocs path rest with
      | .error e => .error e
      | .ok xs => .ok (x :: xs)

/-- Classify all files in order. A file whose path base name begins with an
underscore (a partial or include template) is skipped whole. -/
def classifyAll : List InputFile → Except String (List (Sum Hook Manifest))
  | [] => .ok []
  | f :: rest =>
    match
      (if startsWithUnderscore (baseName f.path.data) then .ok []
       else classifyDocs f.path f.docs) with
    | .error e => .error e
    | .ok xs =>
      match classifyAll rest with
      | .error e => .error e
      | .ok ys => .ok (xs ++ ys)

/-! ## Kind-priority ordering and the stable sort -/

/-- Modelled from the spec: the install-direction kind-priority table,
foundational and cluster-scoped kinds before networking and workload kinds. -/
def InstallOrder : List String :=
  ["Namespace", "ResourceQuota", "LimitRange", "PodSecurityPolicy", "Secret",
   "ConfigMap", "StorageClass", "PersistentVolume", "PersistentVolumeClaim",
   "ServiceAccount", "CustomResourceDefinition", "ClusterRole",
   "ClusterRoleBinding", "Role", "RoleBinding", "Service", "DaemonSet", "Pod",
   "ReplicationController", "ReplicaSet", "Deployment", "StatefulSet", "Job",
   "CronJob", "Ingress", "APIService"]

/-- Modelled from the spec: the uninstall-direction kind-priority table,
dependent workload kinds removed before the foundational kinds. -/
def UninstallOrder : List String :=
  ["APIService", "Ingress", "CronJob", "Job", "StatefulSet", "Deployment",
   "ReplicaSet", "ReplicationController", "Pod", "DaemonSet", "Service",
   "RoleBinding", "Role", "ClusterRoleBinding", "ClusterRole",
   "CustomResourceDefinition", "ServiceAccount", "PersistentVolumeClaim",
   "PersistentVolume", "StorageClass", "ConfigMap", "Secret",
   "PodSecurityPolicy", "LimitRange", "ResourceQuota", "Namespace"]

/-- Priority of a kind: its index in the chosen table, with kinds absent
from the table placed after every known kind. -/
def kindPriority (ordering : List String) (k : String) : Nat :=
  (ordering.findIdx? (fun x => x == k)).getD ordering.length

/-- Sort key of a generic manifest: kind priority, then weight. -/
def manifestSortKey (ordering : List String) (m : Manifest) : Nat × Int :=
  (kindPriority ordering m.head.kind, parseHookWeight m.head.annotations)

/-- Sort key of a hook: kind priority, then weight. -/
def hookSortKey (ordering : List String) (h : Hook) : Nat × Int :=
  (kindPriority ordering h.kind, h.weight)

/-- Lexicographic comparison of sort keys: strictly smaller priority, or
equal priority and no greater weight. -/
def keyLe (a b : Nat × Int) : Prop :=
  a.1 < b.1 ∨ (a.1 = b.1 ∧ a.2 ≤ b.2)

instance : DecidableRel keyLe := fun a b =>
  inferInstanceAs (Decidable (a.1 < b.1 ∨ (a.1 = b.1 ∧ a.2 ≤ b.2)))

/-- Comparison of list elements through a sort-key projection. -/
def leBy (f : α → Nat × Int) (a b : α) : Prop := keyLe (f a) (f b)

instance {f : α → Nat × Int} : DecidableRel (leBy f) := fun a b =>
  inferInstanceAs (Decidable (keyLe (f a) (f b)))

/-- Stable sort by a sort-key projection (insertion sort; an element is
inserted after every earlier element whose key is not greater). -/
def stableSortBy (f : α → Nat × Int) (l : List α) : List α :=
  l.insertionSort (leBy f)

/-- Modelled from the spec: sort generic manifests primarily by kind
priority, secondarily by ascending weight, stably. -/
def sortByKind (ordering : List String) (l : List Manifest) : List Manifest :=
  stableSortBy (manifestSortKey ordering) l

/-- Modelled from the spec: sort hooks primarily by kind priority,
secondarily by ascending weight, stably. -/
def sortHooksByKind (ordering : List String) (l : List Hook) : List Hook :=
  stableSortBy (hookSortKey ordering) l

/-- Modelled from the spec: split, skip, classify and sort a rendered bundle
into lifecycle hooks and ordinary resources. The input carries each file's
documents already split on document separators; files are processed in input
list order (the source iterates a map of paths). The version-set argument is
carried for interface fidelity; the shipped tests show it does not gate
classification. -/
def sortManifests (files : List InputFile) (_vs : List String)
    (ordering : List String) : Except String (List Hook × List Manifest) :=
  match classifyAll files with
  | .error e => .error e
  | .ok xs =>
    .ok (sortHooksByKind ordering (xs.filterMap Sum.getLeft?),
      sortByKind ordering (xs.filterMap Sum.getRight?))

/-! ## Skip behavior and partition helpers -/

/-- A document whose hook-delete-timeout annotation is present but does not
parse as an integer (the only fatal per-document condition in the modelled
sorter). -/
def malformedTimeout (d : ManifestDoc) : Bool :=
  match d.head with
  | none => false
  | some sh =>
    match lookupAnn sh.annotations hookDeleteTimeoutAnno with
    | none => false
    | some tv => (parseInt (trim tv.data)).isNone

/-- The input with every skipped piece removed: files whose base name begins
with an underscore are dropped, as are documents that are empty after
trimming or whose head failed to parse. -/
def pruneFiles (files : List InputFile) : List InputFile :=
  (files.filter (fun f => !startsWithUnderscore (baseName f.path.data))).map
    (fun f => ⟨f.path, f.docs.filter
      (fun d => !(trim d.txt.data).isEmpty && d.head.isSome)⟩)

/-! ## Release storage model

The Releases driver implementation is not among the shipped sources (only
its tests are); the definitions below are modelled from the spec: a Release
record serialized to a compact binary form, gzip-compressed, then
base64-encoded for storage in a text field, with Get transparently decoding
both this encoding and the legacy uncompressed one. -/

/-- Release status codes (spec section 3; numbering follows the wire enum
order used by the Status message referenced in the driver tests). -/
inductive Status
  | unknown | deployed | deleted | superseded | failed | deleting
  | pendingInstall | pendingUpgrade | pendingRollback
deriving DecidableEq

/-- Wire number of a status code. -/
def statusNat : Status → Nat
  | .unknown => 0
  | .deployed => 1
  | .deleted => 2
  | .superseded => 3
  | .failed => 4
  | .deleting => 5
  | .pendingInstall => 6
  | .pendingUpgrade => 7
  | .pendingRollback => 8

/-- Status code of a wire number. -/
def statusOfNat : Nat → Option Status
  | 0 => some .unknown
  | 1 => some .deployed
  | 2 => some .deleted
  | 3 => some .superseded
  | 4 => some .failed
  | 5 => some .deleting
  | 6 => some .pendingInstall
  | 7 => some .pendingUpgrade
  | 8 => some .pendingRollback
  | _ => none

/-- The Release record, restricted to the fields the driver tests observe
(name, version, namespace, status) plus the rendered manifest text. -/
structure Release where
  name : String
  version : Nat
  nspace : String
  status : Status
  manifest : String
deriving DecidableEq

/-- Well-formedness bounds for serialization: string lengths and the version
number fit in 32 bits, as in the wire format being modelled. -/
def Release.wf (r : Release) : Prop :=
  r.name.length < 4294967296 ∧ r.nspace.length < 4294967296 ∧
  r.manifest.length < 4294967296 ∧ r.version < 4294967296

instance (r : Release) : Decidable r.wf :=
  inferInstanceAs (Decidable (_ ∧ _ ∧ _ ∧ _))

/-- Fixed-width 32-bit little-endian byte encoding of a natural number. -/
def encNat32 (n : Nat) : List Nat :=
  [n % 256, n / 256 % 256, n / 65536 % 256, n / 16777216 % 256]

/-- Byte encoding of one character (32-bit code point). -/
def encChar (c : Char) : List Nat := encNat32 c.toNat

/-- Length-prefixed byte encoding of a string. -/
def encString (s : String) : List Nat :=
  encNat32 s.length ++ (s.data.map encChar).flatten

/-- Modelled from the spec: serialize a Release to a compact binary form.
The leading byte 10 is the wire tag of the first field; in particular no
serialized Release begins with the compressed-payload magic byte 31. -/
def protoMarshal (r : Release) : List Nat :=
  10 :: encString r.name ++ encString r.nspace ++ encString r.manifest ++
    encNat32 r.version ++ [statusNat r.status]

/-- Read a 32-bit little-endian natural number. -/
def decNat32 : List Nat → Option (Nat × List Nat)
  | b0 :: b1 :: b2 :: b3 :: rest =>
    some (b0 + 256 * b1 + 65536 * b2 + 16777216 * b3, rest)
  | _ => none

/-- Read a run of characters of the given count. -/
def decChars : Nat → List Nat → Option (List Char × List Nat)
  | 0, l => some ([], l)
  | n + 1, b0 :: b1 :: b2 :: b3 :: rest =>
    match decChars n rest with
    | some (cs, rem) =>
      some (Char.ofNat (b0 + 256 * b1 + 65536 * b2 + 16777216 * b3) :: cs, rem)
    | none => none
  | _ + 1, _ => none

/-- Read a length-prefixed string. -/
def decString (l : List Nat) : Option (String × List Nat) :=
  match decNat32 l with
  | none => none
  | some (n, rest) =>
    match decChars n rest with
    | none => none
    | some (cs, rem) => some (⟨cs⟩, rem)

/-- Modelled from the spec: deserialize a Release from its compact binary
form; any malformed input yields none. -/
def protoUnmarshal (l : List Nat) : Option Release :=
  match l with
  | 10 :: rest =>
    match decString rest with
    | none => none
    | some (name, r1) =>
      match decString r1 with
      | none => none
      | some (ns, r2) =>
        match decString r2 with
        | none => none
        | some (man, r3) =>
          match r3 with
          | [v0, v1, v2, v3, st] =>
            match statusOfNat st with
            | some stc =>
              some ⟨name, v0 + 256 * v1 + 65536 * v2 + 16777216 * v3, ns, stc, man⟩
            | none => none
          | _ => none
  | _ => none

/-- Modelled from the spec: gzip compression of a byte sequence. The two
leading bytes are the gzip magic header 31, 139 by which the decoder detects
a compressed payload; the body is carried verbatim, since the storage
contract relies only on the compressor being invertible and its output being
detectable, never on the compressed bit layout. -/
def gzipCompress (bs : List Nat) : List Nat := 31 :: 139 :: bs

/-- Inverse of the modelled compression: strip the magic header. -/
def gzipDecompress : List Nat → Option (List Nat)
  | 31 :: 139 :: rest => some rest
  | _ => none

/-- Detect the gzip magic header. -/
def hasGzipMagic : List Nat → Bool
  | 31 :: 139 :: _ => true
  | _ => false

/-- The standard base64 alphabet. -/
def b64Alphabet : List Char :=
  "ABCDEFGHIJKLMNOPQRSTUVWXYZabcdefghijklmnopqrstuvwxyz0123456789+/".data

/-- Character of a six-bit value. -/
def b64Char (n : Nat) : Char := b64Alphabet.getD n 'A'

/-- Six-bit value of a character; none for characters outside the alphabet. -/
def b64Val (c : Char) : Option Nat := b64Alphabet.findIdx? (fun x => x == c)

/-- Standard base64 encoding of a byte sequence, with padding. -/
def b64Encode : List Nat → List Char
  | [] => []
  | [a] => [b64Char (a / 4), b64Char (a % 4 * 16), '=', '=']
  | [a, b] => [b64Char (a / 4), b64Char (a % 4 * 16 + b / 16), b64Char (b % 16 * 4), '=']
  | a :: b :: c :: rest =>
    b64Char (a / 4) :: b64Char (a % 4 * 16 + b / 16) ::
      b64Char (b % 16 * 4 + c / 64) :: b64Char (c % 64) :: b64Encode rest

/-- Decode a final base64 quadruple, honoring padding. -/
def b64DecodeChunk (c1 c2 c3 c4 : Char) : Option (List Nat) :=
  match b64Val c1, b64Val c2 with
  | some s1, some s2 =>
    if c3 = '=' then
      if c4 = '=' then some [s1 * 4 + s2 / 16] else none
    else
      match b64Val c3 with
      | some s3 =>
        if c4 = '=' then some [s1 * 4 + s2 / 16, s2 % 16 * 16 + s3 / 4]
        else
          match b64Val c4 with
          | some s4 =>
            some [s1 * 4 + s2 / 16, s2 % 16 * 16 + s3 / 4, s3 % 4 * 64 + s4]
          | none => none
      | none => none
  | _, _ => none

/-- Standard base64 decoding; none for malformed input. -/
def b64Decode : List Char → Option (List Nat)
  | [] => some []
  | [c1, c2, c3, c4] => b64DecodeChunk c1 c2 c3 c4
  | c1 :: c2 :: c3 :: c4 :: rest =>
    match b64Val c1, b64Val c2, b64Val c3, b64Val c4, b64Decode rest with
    | some s1, some s2, some s3, some s4, some tail =>
      some ((s1 * 4 + s2 / 16) :: (s2 % 16 * 16 + s3 / 4) :: (s3 % 4 * 64 + s4) :: tail)
    | _, _, _, _, _ => none
  | _ => none

/-- Modelled from the spec: the stored payload encoding of a Release:
serialize, gzip-compress, then base64-encode. -/
def encodeRelease (r : Release) : List Char :=
  b64Encode (gzipCompress (protoMarshal r))

/-- Modelled from the spec: the legacy uncompressed payload encoding, plain
base64 of the serialized Release (the encoding written directly by
TestUNcompressedReleaseGet). -/
def legacyEncodeRelease (r : Release) : List Char :=
  b64Encode (protoMarshal r)

/-- Modelled from the spec: decode a stored payload, transparently detecting
the compressed encoding by its magic header and otherwise falling back to
the legacy uncompressed decoding. -/
def decodeRelease (s : List Char) : Option Release :=
  match b64Decode s with
  | none => none
  | some bs =>
    if hasGzipMagic bs then
      match gzipDecompress bs with
      | none => none
      | some raw => protoUnmarshal raw
    else protoUnmarshal bs

/-- One backing object of the Releases driver: its object key and the text
payload field holding an encoded Release. -/
structure ReleasesObject where
  key : String
  data : List Char
deriving DecidableEq

/-- The driver state: the backing objects, in a fixed backend enumeration
order (a fixed state yields a fixed order, as the contract requires). -/
abbrev DriverState : Type := List ReleasesObject

/-- Storage errors of the driver contract. -/
inductive StorageErr
  | notFound | alreadyExists | decodeFailure
deriving DecidableEq

/-- Modelled from the spec: Get fails with NotFound when the key is absent
and otherwise decodes the stored payload. -/
def driverGet (st : DriverState) (k : String) : Except StorageErr Release :=
  match List.find? (fun o => o.key == k) st with
  | none => .error .notFound
  | some o =>
    match decodeRelease o.data with
    | none => .error .decodeFailure
    | some r => .ok r

/-- Modelled from the spec: Create fails with AlreadyExists when the key is
occupied and otherwise stores the compressed encoding of the release. -/
def driverCreate (st : DriverState) (k : String) (r : Release) :
    Except StorageErr DriverState :=
  match List.find? (fun o => o.key == k) st with
  | some _ => .error .alreadyExists
  | none => .ok (st ++ [⟨k, encodeRelease r⟩])

/-- Modelled from the spec: List returns every stored release satisfying the
predicate, in backend enumeration order. -/
def driverList (st : DriverState) (p : Release → Bool) : List Release :=
  (st.filterMap (fun o => decodeRelease o.data)).filter p

/-! ## Server startup storage selection (cmd/tiller/tiller.go) -/

/-- The supported storage backend selection strings (the store switch of
start in cmd/tiller/tiller.go). -/
def supportedStores : List String :=
  ["memory", "configmap", "inline-tpr", "object-store-tpr"]

/-- The object-store provider kinds with a case in the provider switch of
start (the stow provider kind strings). -/
def supportedObjectStoreProviders : List String :=
  ["s3", "google", "azure", "swift"]

/-- How startup left the release storage configured. -/
inductive BackendInit
  | memory
  | configmap
  | inlineTPR
  | objectStoreTPR (provider : String)
  | keepDefault
deriving DecidableEq

/-- Outcome of the storage-selection portion of start. -/
inductive StartStorageOutcome
  | proceed (b : BackendInit)
  | exitError (msg : String)
deriving DecidableEq

/-- Embeds the storage-selection switch of start in cmd/tiller/tiller.go.
The store switch has cases for the four supported strings and no default
case, so any other selection string leaves env.Releases exactly as
environment.New initialized it (keepDefault) and startup proceeds; only the
inner provider switch under object-store-tpr has a default case, which
prints Unknown provider and exits. Credential assembly and the object-store
dial, which depend on ambient input and output, are outside this embedding. -/
def selectStorageBackend (store provider : String) : StartStorageOutcome :=
  if store = "memory" then .proceed .memory
  else if store = "configmap" then .proceed .configmap
  else if store = "inline-tpr" then .proceed .inlineTPR
  else if store = "object-store-tpr" then
    if supportedObjectStoreProviders.contains provider then
      .proceed (.objectStoreTPR provider)
    else .exitError "Unknown provider"
  else .proceed .keepDefault

/-- The default namespace constant of the environment package (referenced by
namespace in cmd/tiller/tiller.go; the constant itself lives outside the
shipped sources, only its role as a fixed fallback is observable). -/
def DefaultTillerNamespace : String := "kube-system"

/-- Embeds namespace from cmd/tiller/tiller.go. The environment variable
value and the optional service-account namespace file contents are passed
as arguments (none models an unreadable file); the function returns the
environment value when non-empty, else the trimmed non-empty file contents,
else the default namespace constant. -/
def namespaceResolve (tillerNamespaceEnv : String)
    (saNamespaceFile : Option String) : String :=
  if tillerNamespaceEnv != "" then tillerNamespaceEnv
  else
    match saNamespaceFile with
    | some data =>
      if 0 < (trim data.data).length then ⟨trim data.data⟩
      else DefaultTillerNamespace
    | none => DefaultTillerNamespace

/-! ## HTTP gateway request translators (the generated reverse proxy) -/

/-- The gRPC status code classification the gateway handlers use. -/
inductive GrpcCode
  | invalidArgument | other
deriving DecidableEq

/-- An invocation of the underlying RPC client, with the request fields the
handler populated from the path parameters. -/
inductive RPCCall
  | getReleaseStatus (name : String) (version : Int)
  | getReleaseContent (name : String) (version : Int)
  | updateRelease (name : String)
  | installRelease (name : String)
  | uninstallRelease (name : String)
  | rollbackRelease (name : String) (version : Int)
  | getHistory (name : String)
deriving DecidableEq

/-- Outcome of one gateway handler: either it returned an error before ever
invoking the RPC client, or it invoked the client with the given call. -/
inductive GatewayOutcome
  | noCall (code : GrpcCode)
  | call (rpc : RPCCall)
deriving DecidableEq

/-- Look up a path parameter by name. -/
def lookupParam (ps : List (String × String)) (k : String) : Option String :=
  (List.find? (fun q => q.1 == k) ps).map Prod.snd

/-- Embeds runtime.Int32: parse the value as an integer and require it to
fit in 32 bits. -/
def runtimeInt32 (s : String) : Option Int :=
  match parseInt s.data with
  | some t => if -2147483648 ≤ t ∧ t ≤ 2147483647 then some t else none
  | none => none

/-- Embeds request_ReleaseService_GetReleaseStatus_0: a missing name or
version path parameter is an InvalidArgument error before any client call;
a version that fails integer conversion returns that conversion error. -/
def request_ReleaseService_GetReleaseStatus_0
    (pathParams : List (String × String)) : GatewayOutcome :=
  match lookupParam pathParams "name" with
  | none => .noCall .invalidArgument
  | some nameVal =>
    match lookupParam pathParams "version" with
    | none => .noCall .invalidArgument
    | some v =>
      match runtimeInt32 v with
      | none => .noCall .other
      | some ver => .call (.getReleaseStatus nameVal ver)

/-- Embeds request_ReleaseService_GetReleaseContent_0. -/
def request_ReleaseService_GetReleaseContent_0
    (pathParams : List (String × String)) : GatewayOutcome :=
  match lookupParam pathParams "name" with
  | none => .noCall .invalidArgument
  | some nameVal =>
    match lookupParam pathParams "version" with
    | none => .noCall .invalidArgument
    | some v =>
      match runtimeInt32 v with
      | none => .noCall .other
      | some ver => .call (.getReleaseContent nameVal ver)

/-- Embeds request_ReleaseService_UpdateRelease_0: the request body is
decoded first (a decode failure is an InvalidArgument error), then the name
path parameter is required. -/
def request_ReleaseService_UpdateRelease_0 (bodyDecodeOk : Bool)
    (pathParams : List (String × String)) : GatewayOutcome :=
  if !bodyDecodeOk then .noCall .invalidArgument
  else
    match lookupParam pathParams "name" with
    | none => .noCall .invalidArgument
    | some nameVal => .call (.updateRelease nameVal)

/-- Embeds request_ReleaseService_InstallRelease_0. -/
def request_ReleaseService_InstallRelease_0 (bodyDecodeOk : Bool)
    (pathParams : List (String × String)) : GatewayOutcome :=
  if !bodyDecodeOk then .noCall .invalidArgument
  else
    match lookupParam pathParams "name" with
    | none => .noCall .invalidArgument
    | some nameVal => .call (.installRelease nameVal)

/-- Embeds request_ReleaseService_UninstallRelease_0: the name path
parameter is required, then query parameters are populated (a failure there
is an InvalidArgument error). -/
def request_ReleaseService_UninstallRelease_0 (queryOk : Bool)
    (pathParams : List (String × String)) : GatewayOutcome :=
  match lookupParam pathParams "name" with
  | none => .noCall .invalidArgument
  | some nameVal =>
    if !queryOk then .noCall .invalidArgument
    else .call (.uninstallRelease nameVal)

/-- Embeds request_ReleaseService_RollbackRelease_0. -/
def request_ReleaseService_RollbackRelease_0 (queryOk : Bool)
    (pathParams : List (String × String)) : GatewayOutcome :=
  match lookupParam pathParams "name" with
  | none => .noCall .invalidArgument
  | some nameVal =>
    match lookupParam pathParams "version" with
    | none => .noCall .invalidArgument
    | some v =>
      match runtimeInt32 v with
      | none => .noCall .other
      | some ver =>
        if !queryOk then .noCall .invalidArgument
        else .call (.rollbackRelease nameVal ver)

/-- Embeds request_ReleaseService_GetHistory_0. -/
def request_ReleaseService_GetHistory_0 (queryOk : Bool)
    (pathParams : List (String × String)) : GatewayOutcome :=
  match lookupParam pathParams "name" with
  | none => .noCall .invalidArgument
  | some nameVal =>
    if !queryOk then .noCall .invalidArgument
    else .call (.getHistory nameVal)

/-! ## Concrete fixtures

Inputs mirroring the shipped test fixtures, used to instantiate the
theorems below on concrete data. Document texts are abbreviated stand-ins
for the YAML bodies; the parsed heads carry the fields the sorter reads. -/

def exampleVersionSet : List String := ["v1", "v1beta1"]

def exampleFirst : InputFile :=
  ⟨"one", [⟨"doc-first", some ⟨"v1", "Job", "first",
    [("helm.sh/hook", "pre-install")]⟩⟩]⟩

def exampleSecond : InputFile :=
  ⟨"two", [⟨"doc-second", some ⟨"v1beta1", "ReplicaSet", "second",
    [("helm.sh/hook", "post-install")]⟩⟩]⟩

def exampleThirdDoc : ManifestDoc :=
  ⟨"doc-third", some ⟨"v1beta1", "ReplicaSet", "third",
    [("helm.sh/hook", "no-such-hook")]⟩⟩

def exampleThird : InputFile := ⟨"three", [exampleThirdDoc]⟩

def exampleFourthDoc : ManifestDoc :=
  ⟨"doc-fourth", some ⟨"v1", "Pod", "fourth", [("nothing", "here")]⟩⟩

def exampleFourth : InputFile := ⟨"four", [exampleFourthDoc]⟩

def exampleFifth : InputFile :=
  ⟨"five", [⟨"doc-fifth", some ⟨"v1beta1", "ReplicaSet", "fifth",
    [("helm.sh/hook", "post-delete, post-install")]⟩⟩]⟩

def exampleSixth : InputFile := ⟨"six/_six", [⟨"invalid manifest", none⟩]⟩

def exampleSeventh : InputFile := ⟨"seven", [⟨"", none⟩]⟩

def exampleEighth : InputFile :=
  ⟨"eight", [⟨"doc-eighth", some ⟨"v1", "ConfigMap", "eighth", []⟩⟩,
    ⟨"doc-example-test", some ⟨"v1", "Pod", "example-test",
      [("helm.sh/hook", "test-success")]⟩⟩]⟩

def exampleFiles : List InputFile :=
  [exampleFirst, exampleSecond, exampleThird, exampleFourth, exampleFifth,
   exampleSixth, exampleSeventh, exampleEighth]

/-- The crd-install hook document with a delete policy and no timeout. -/
def crdDocDefaultTimeout : ManifestDoc :=
  ⟨"doc-crd-a", some ⟨"apiextensions.k8s.io/v1beta1",
    "CustomResourceDefinition", "example.com",
    [("helm.sh/hook", "crd-install"),
     ("helm.sh/hook-delete-policy", "before-hook-creation")]⟩⟩

/-- The crd-install hook document with a delete policy and explicit timeout. -/
def crdDocExplicitTimeout : ManifestDoc :=
  ⟨"doc-crd-b", some ⟨"apiextensions.k8s.io/v1beta1",
    "CustomResourceDefinition", "example.com",
    [("helm.sh/hook", "crd-install"),
     ("helm.sh/hook-delete-policy", "hook-succeeded"),
     ("helm.sh/hook-delete-timeout", "420")]⟩⟩

/-- The crd-install hook document with no delete policy. -/
def crdDocNoPolicy : ManifestDoc :=
  ⟨"doc-crd-c", some ⟨"apiextensions.k8s.io/v1beta1",
    "CustomResourceDefinition", "example.com",
    [("helm.sh/hook", "crd-install")]⟩⟩

/-- A concrete release mirroring the releaseStub of the driver tests. -/
def exampleRelease : Release := ⟨"smug-pigeon", 1, "default", .deployed, "mf"⟩

/-- A second concrete release with a different status. -/
def exampleRelease2 : Release := ⟨"key-2", 1, "default", .deleted, "mf2"⟩

/-! ## Theorems: stability of the kind sort (C7) -/

theorem keyLe_of_eq {x y : Nat × Int} (h : x = y) : keyLe x y := by
  subst h; exact Or.inr ⟨rfl, le_refl _⟩

theorem key_ne_of_not_keyLe {x y : Nat × Int} (h : ¬ keyLe x y) : x ≠ y :=
  fun he => h (keyLe_of_eq he)

theorem filter_orderedInsert_key {α : Type} (f : α → Nat × Int) (k : Nat × Int)
    (a : α) :
    ∀ l : List α,
      (List.orderedInsert (leBy f) a l).filter (fun x => f x == k) =
        if f a == k then a :: l.filter (fun x => f x == k)
        else l.filter (fun x => f x == k) := by
  intro l
  induction l with
  | nil =>
    by_cases hfa : (f a == k) = true <;>
      simp [List.orderedInsert, List.filter, hfa]
  | cons b l ih =>
    by_cases hab : leBy f a b
    · by_cases hfa : f a == k <;>
        simp_all [List.orderedInsert, List.filter_cons]
    · have hne : f a ≠ f b := key_ne_of_not_keyLe hab
      have hrw : (List.orderedInsert (leBy f) a (b :: l)) =
          b :: List.orderedInsert (leBy f) a l := by
        simp [List.orderedInsert, hab]
      rw [hrw]
      by_cases hfa : f a == k
      · have hfb : (f b == k) = false := by
          refine beq_eq_false_iff_ne.mpr ?_
          intro hbe
          exact hne ((beq_iff_eq.mp hfa).trans hbe.symm)
        simp [List.filter_cons, hfb, ih, hfa]
      · simp [List.filter_cons, ih, hfa]

theorem filter_insertionSort_key {α : Type} (f : α → Nat × Int) (k : Nat × Int) :
    ∀ l : List α,
      ((l.insertionSort (leBy f)).filter (fun x => f x == k)) =
        l.filter (fun x => f x == k)
  | [] => rfl
  | a :: l => by
    rw [List.insertionSort, filter_orderedInsert_key,
      filter_insertionSort_key f k l]
    by_cases hfa : f a == k <;> simp [hfa, List.filter_cons]

theorem stableSortBy_stable {α : Type} (f : α → Nat × Int) (l : List α)
    (k : Nat × Int) :
    (stableSortBy f l).filter (fun x => f x == k) =
      l.filter (fun x => f x == k) :=
  filter_insertionSort_key f k l

theorem stableSortBy_perm {α : Type} (f : α → Nat × Int) (l : List α) :
    (stableSortBy f l).Perm l :=
  List.perm_insertionSort _ l

/-- C7: the sort performed by sortByKind (used for both output sequences of
sortManifests, on generic manifests and on hooks) is stable: it is a
permutation of its input, and for every sort key, the subsequence of
elements whose kind-priority and weight equal that key is exactly the input
subsequence in input order, so two documents of equal kind-priority and
equal weight retain their relative input order. -/
theorem sortByKind_stable (ordering : List String) (l : List Manifest)
    (hl : List Hook) (k : Nat × Int) :
    (sortByKind ordering l).Perm l ∧
    (sortHooksByKind ordering hl).Perm hl ∧
    (sortByKind ordering l).filter (fun m => manifestSortKey ordering m == k) =
      l.filter (fun m => manifestSortKey ordering m == k) ∧
    (sortHooksByKind ordering hl).filter (fun h => hookSortKey ordering h == k) =
      hl.filter (fun h => hookSortKey ordering h == k) :=
  ⟨stableSortBy_perm _ l, stableSortBy_perm _ hl,
    stableSortBy_stable _ l k, stableSortBy_stable _ hl k⟩

/-! ## Theorems: skip behavior and classification of the sorter -/

theorem classifyOne_empty (path : String) (d : ManifestDoc)
    (h : (trim d.txt.data).isEmpty = true) : classifyOne path d = .ok none := by
  unfold classifyOne
  simp [h]

theorem classifyOne_noHead (path : String) (d : ManifestDoc)
    (h : d.head = none) : classifyOne path d = .ok none := by
  unfold classifyOne
  rw [h]
  split <;> rfl

theorem classifyOne_ne_error (path : String) (d : ManifestDoc)
    (h : malformedTimeout d = false) :
    ∀ e, classifyOne path d ≠ .error e := by
  intro e
  by_cases he : (trim d.txt.data).isEmpty = true
  · simp [classifyOne_empty path d he]
  · cases hd : d.head with
    | none => simp [classifyOne_noHead path d hd]
    | some sh =>
      simp only [malformedTimeout, hd] at h
      cases hha : lookupAnn sh.annotations hookAnno with
      | none => simp [classifyOne, he, hd, hha]
      | some hv =>
        by_cases hev : (parseHookEvents hv).isEmpty = true
        · simp [classifyOne, he, hd, hha, hev]
        · cases hpa : lookupAnn sh.annotations hookDeleteAnno with
          | none => simp [classifyOne, he, hd, hha, hev, hpa]
          | some pv =>
            cases hta : lookupAnn sh.annotations hookDeleteTimeoutAnno with
            | none => simp [classifyOne, he, hd, hha, hev, hpa, hta]
            | some tv =>
              simp only [hta] at h
              cases hpi : parseInt (trim tv.data) with
              | none => simp [hpi] at h
              | some t => simp [classifyOne, he, hd, hha, hev, hpa, hta, hpi]

theorem classifyDocs_isOk (path : String) :
    ∀ docs : List ManifestDoc, (∀ d ∈ docs, malformedTimeout d = false) →
      ∃ xs, classifyDocs path docs = .ok xs
  | [], _ => ⟨[], rfl⟩
  | d :: docs, h => by
    obtain ⟨xs, hxs⟩ :=
      classifyDocs_isOk path docs (fun d' hd' => h d' (by simp [hd']))
    cases ho : classifyOne path d with
    | error e => exact absurd ho (classifyOne_ne_error path d (h d (by simp)) e)
    | ok o =>
      cases o with
      | none => exact ⟨xs, by simp [classifyDocs, ho, hxs]⟩
      | some x => exact ⟨x :: xs, by simp [classifyDocs, ho, hxs]⟩

theorem classifyDocs_filter (path : String) :
    ∀ docs : List ManifestDoc,
      classifyDocs path docs = classifyDocs path
        (docs.filter (fun d => !(trim d.txt.data).isEmpty && d.head.isSome))
  | [] => rfl
  | d :: docs => by
    by_cases hk : (!(trim d.txt.data).isEmpty && d.head.isSome) = true
    · rw [List.filter_cons, if_pos hk]
      simp only [classifyDocs]
      rw [← classifyDocs_filter path docs]
    · rw [List.filter_cons, if_neg hk]
      have hnone : classifyOne path d = .ok none := by
        rcases Bool.and_eq_false_iff.mp (Bool.eq_false_iff.mpr hk) with hne | hhd
        · exact classifyOne_empty path d (by simpa using hne)
        · exact classifyOne_noHead path d (Option.not_isSome_iff_eq_none.mp
            (by simpa using hhd))
      simp only [classifyDocs, hnone]
      exact classifyDocs_filter path docs

theorem classifyAll_isOk :
    ∀ files : List InputFile,
      (∀ f ∈ files, ∀ d ∈ f.docs, malformedTimeout d = false) →
      ∃ xs, classifyAll files = .ok xs
  | [], _ => ⟨[], rfl⟩
  | f :: files, h => by
    obtain ⟨ys, hys⟩ :=
      classifyAll_isOk files (fun f' hf' d hd => h f' (by simp [hf']) d hd)
    by_cases hu : startsWithUnderscore (baseName f.path.data) = true
    · exact ⟨ys, by simp [classifyAll, hu, hys]⟩
    · obtain ⟨xs, hxs⟩ := classifyDocs_isOk f.path f.docs (h f (by simp))
      exact ⟨xs ++ ys, by simp [classifyAll, hu, hxs, hys]⟩

theorem classifyAll_prune :
    ∀ files : List InputFile, classifyAll files = classifyAll (pruneFiles files)
  | [] => rfl
  | f :: files => by
    by_cases hu : startsWithUnderscore (baseName f.path.data) = true
    · have hp : pruneFiles (f :: files) = pruneFiles files := by
        simp [pruneFiles, hu]
      rw [hp, ← classifyAll_prune files]
      simp only [classifyAll, hu, if_true]
      cases hca : classifyAll files <;> simp [hca]
    · have hp : pruneFiles (f :: files) =
          (⟨f.path, f.docs.filter
            (fun d => !(trim d.txt.data).isEmpty && d.head.isSome)⟩ : InputFile)
            :: pruneFiles files := by
        simp [pruneFiles, hu]
      rw [hp]
      simp only [classifyAll, hu, if_false]
      rw [← classifyDocs_filter f.path f.docs, ← classifyAll_prune files]

theorem mem_classifyDocs (path : String) :
    ∀ (docs : List ManifestDoc) (xs : List (Sum Hook Manifest)),
      classifyDocs path docs = .ok xs →
      ∀ d ∈ docs, ∀ x, classifyOne path d = .ok (some x) → x ∈ xs
  | [], _, _, d, hd => nomatch hd
  | d0 :: docs, xs, h, d, hd => by
    intro x hx
    rcases List.mem_cons.mp hd with rfl | hdm
    · simp only [classifyDocs, hx] at h
      cases hcd : classifyDocs path docs with
      | error e => rw [hcd] at h; exact nomatch h
      | ok ys =>
        rw [hcd] at h
        simp only [Except.ok.injEq] at h
        subst h
        exact List.mem_cons_self x ys
    · cases hc0 : classifyOne path d0 with
      | error e => simp only [classifyDocs, hc0] at h; exact nomatch h
      | ok o =>
        cases o with
        | none =>
          simp only [classifyDocs, hc0] at h
          exact mem_classifyDocs path docs xs h d hdm x hx
        | some y =>
          simp only [classifyDocs, hc0] at h
          cases hcd : classifyDocs path docs with
          | error e => rw [hcd] at h; exact nomatch h
          | ok ys =>
            rw [hcd] at h
            simp only [Except.ok.injEq] at h
            subst h
            exact List.mem_cons_of_mem y
              (mem_classifyDocs path docs ys hcd d hdm x hx)

theorem classifyDocs_doc_ok (path : String) :
    ∀ (docs : List ManifestDoc) (xs : List (Sum Hook Manifest)),
      classifyDocs path docs = .ok xs →
      ∀ d ∈ docs, ∀ e, classifyOne path d ≠ .error e
  | [], _, _, d, hd => nomatch hd
  | d0 :: docs, xs, h, d, hd => by
    intro e hx
    rcases List.mem_cons.mp hd with rfl | hdm
    · simp only [classifyDocs, hx] at h
      exact nomatch h
    · cases hc0 : classifyOne path d0 with
      | error e0 => simp only [classifyDocs, hc0] at h; exact nomatch h
      | ok o =>
        cases o with
        | none =>
          simp only [classifyDocs, hc0] at h
          exact classifyDocs_doc_ok path docs xs h d hdm e hx
        | some y =>
          simp only [classifyDocs, hc0] at h
          cases hcd : classifyDocs path docs with
          | error e1 => rw [hcd] at h; exact nomatch h
          | ok ys => exact classifyDocs_doc_ok path docs ys hcd d hdm e hx

theorem mem_classifyAll :
    ∀ (files : List InputFile) (xs : List (Sum Hook Manifest)),
      classifyAll files = .ok xs →
      ∀ f ∈ files, startsWithUnderscore (baseName f.path.data) = false →
      ∀ d ∈ f.docs, ∀ x, classifyOne f.path d = .ok (some x) → x ∈ xs
  | [], _, _, f, hf => nomatch hf
  | f0 :: files, xs, h, f, hf => by
    intro hu d hd x hx
    rcases List.mem_cons.mp hf with rfl | hfm
    · simp only [classifyAll, hu, Bool.false_eq_true, if_false] at h
      cases hcd : classifyDocs f.path f.docs with
      | error e => rw [hcd] at h; exact nomatch h
      | ok as =>
        rw [hcd] at h
        cases hca : classifyAll files with
        | error e => rw [hca] at h; exact nomatch h
        | ok ys =>
          rw [hca] at h
          simp only [Except.ok.injEq] at h
          subst h
          exact List.mem_append_left ys
            (mem_classifyDocs f.path f.docs as hcd d hd x hx)
    · by_cases hu0 : startsWithUnderscore (baseName f0.path.data) = true
      · simp only [classifyAll, hu0, if_true] at h
        cases hca : classifyAll files with
        | error e => rw [hca] at h; exact nomatch h
        | ok ys =>
          rw [hca] at h
          simp only [Except.ok.injEq, List.nil_append] at h
          subst h
          exact mem_classifyAll files ys hca f hfm hu d hd x hx
      · simp only [classifyAll, hu0, Bool.false_eq_true, if_false] at h
        cases hcd : classifyDocs f0.path f0.docs with
        | error e => rw [hcd] at h; exact nomatch h
        | ok as =>
          rw [hcd] at h
          cases hca : classifyAll files with
          | error e => rw [hca] at h; exact nomatch h
          | ok ys =>
            rw [hca] at h
            simp only [Except.ok.injEq] at h
            subst h
            exact List.mem_append_right as
              (mem_classifyAll files ys hca f hfm hu d hd x hx)

theorem classifyAll_doc_ok :
    ∀ (files : List InputFile) (xs : List (Sum Hook Manifest)),
      classifyAll files = .ok xs →
      ∀ f ∈ files, startsWithUnderscore (baseName f.path.data) = false →
      ∀ d ∈ f.docs, ∀ e, classifyOne f.path d ≠ .error e
  | [], _, _, f, hf => nomatch hf
  | f0 :: files, xs, h, f, hf => by
    intro hu d hd e hx
    rcases List.mem_cons.mp hf with rfl | hfm
    · simp only [classifyAll, hu, Bool.false_eq_true, if_false] at h
      cases hcd : classifyDocs f.path f.docs with
      | error e0 => rw [hcd] at h; exact nomatch h
      | ok as => exact classifyDocs_doc_ok f.path f.docs as hcd d hd e hx
    · by_cases hu0 : startsWithUnderscore (baseName f0.path.data) = true
      · simp only [classifyAll, hu0, if_true] at h
        cases hca : classifyAll files with
        | error e0 => rw [hca] at h; exact nomatch h
        | ok ys => exact classifyAll_doc_ok files ys hca f hfm hu d hd e hx
      · simp only [classifyAll, hu0, Bool.false_eq_true, if_false] at h
        cases hcd : classifyDocs f0.path f0.docs with
        | error e0 => rw [hcd] at h; exact nomatch h
        | ok as =>
          rw [hcd] at h
          cases hca : classifyAll files with
          | error e0 => rw [hca] at h; exact nomatch h
          | ok ys => exact classifyAll_doc_ok files ys hca f hfm hu d hd e hx

theorem classifyOne_generic (path : String) (d : ManifestDoc) (sh : SimpleHead)
    (he : (trim d.txt.data).isEmpty = false) (hd : d.head = some sh)
    (hha : lookupAnn sh.annotations hookAnno = none) :
    classifyOne path d = .ok (some (.inr ⟨sh.name, d.txt, sh⟩)) := by
  simp [classifyOne, he, hd, hha]

theorem classifyOne_hook_shape (path : String) (d : ManifestDoc)
    (sh : SimpleHead) (hv : String)
    (he : (trim d.txt.data).isEmpty = false) (hd : d.head = some sh)
    (hha : lookupAnn sh.annotations hookAnno = some hv)
    (hev : (parseHookEvents hv).isEmpty = false) :
    (∃ e, classifyOne path d = .error e) ∨
    ∃ P T, classifyOne path d = .ok (some (.inl ⟨path, sh.name, sh.kind, d.txt,
      parseHookEvents hv, P, T, parseHookWeight sh.annotations⟩)) := by
  cases hpa : lookupAnn sh.annotations hookDeleteAnno with
  | none =>
    exact Or.inr ⟨[], 0, by simp [classifyOne, he, hd, hha, hev, hpa]⟩
  | some pv =>
    cases hta : lookupAnn sh.annotations hookDeleteTimeoutAnno with
    | none =>
      exact Or.inr ⟨parseHookDeletePolicies pv, defaultHookDeleteTimeoutInSeconds,
        by simp [classifyOne, he, hd, hha, hev, hpa, hta]⟩
    | some tv =>
      cases hpi : parseInt (trim tv.data) with
      | none =>
        exact Or.inl ⟨"malformed hook-delete-timeout value",
          by simp [classifyOne, he, hd, hha, hev, hpa, hta, hpi]⟩
      | some t =>
        exact Or.inr ⟨parseHookDeletePolicies pv, t,
          by simp [classifyOne, he, hd, hha, hev, hpa, hta, hpi]⟩

/-- C6: the sorter skips every file whose path base name begins with an
underscore and every document that is empty after trimming, and a
head-parse failure skips only that document without failing the batch: as
long as no document carries a malformed hook-delete-timeout value (the one
fatal per-document condition), sortManifests succeeds, and its result is
unchanged when every skipped piece (underscore files, empty documents,
unparsable documents) is removed from the input. -/
theorem sortManifests_skip (files : List InputFile) (vs ordering : List String)
    (h : ∀ f ∈ files, ∀ d ∈ f.docs, malformedTimeout d = false) :
    (∃ out, sortManifests files vs ordering = .ok out) ∧
    sortManifests files vs ordering =
      sortManifests (pruneFiles files) vs ordering := by
  obtain ⟨xs, hxs⟩ := classifyAll_isOk files h
  refine ⟨⟨(sortHooksByKind ordering (xs.filterMap Sum.getLeft?),
    sortByKind ordering (xs.filterMap Sum.getRight?)), ?_⟩, ?_⟩
  · simp [sortManifests, hxs]
  · unfold sortManifests
    rw [← classifyAll_prune files]

/-- Witness for C6 at a concrete input: an underscore-path file holding an
unparsable document, an empty-document file, a non-underscore file holding
an unparsable document, and an ordinary generic document. -/
theorem sortManifests_skip_witness :
    (∃ out, sortManifests
        [exampleSixth, exampleSeventh, ⟨"bad", [⟨"not yaml", none⟩]⟩,
          exampleFourth] exampleVersionSet InstallOrder = .ok out) ∧
    sortManifests
        [exampleSixth, exampleSeventh, ⟨"bad", [⟨"not yaml", none⟩]⟩,
          exampleFourth] exampleVersionSet InstallOrder =
      sortManifests (pruneFiles
        [exampleSixth, exampleSeventh, ⟨"bad", [⟨"not yaml", none⟩]⟩,
          exampleFourth]) exampleVersionSet InstallOrder :=
  sortManifests_skip _ _ _ (by decide)

/-- C1 counterexample: the claim states that every surviving document lands
in exactly one of the two outputs, and in particular that a document whose
hook annotation carries only unrecognized event tokens becomes a generic
resource. On the concrete input mirroring the third fixture document of
TestSortManifests (path three, a parsed ReplicaSet head annotated
helm.sh/hook: no-such-hook, non-underscore path, nonempty text), the
modelled sorter, pinned by that test expecting two generic manifests and
four hooks from the eight-file fixture, returns empty hook and generic
sequences: the document appears in neither output, refuting the claim. -/
theorem sortManifests_unrecognizedHook_dropped :
    sortManifests [exampleThird] exampleVersionSet InstallOrder = .ok ([], []) ∧
    startsWithUnderscore (baseName exampleThird.path.data) = false ∧
    (trim exampleThirdDoc.txt.data).isEmpty = false ∧
    exampleThirdDoc.head.isSome = true := by
  refine ⟨rfl, ?_, ?_, ?_⟩ <;> decide

/-- C1 (amended): every surviving document that either carries no hook
annotation or whose hook annotation yields at least one recognized event
appears in exactly one of the two outputs of sortManifests: the hook
sequence is a permutation of the classified hook entries and the generic
sequence a permutation of the classified generic entries (each classified
entry is exactly one of the two), a surviving parsed document without a
hook annotation yields its generic manifest in the generic output, and one
whose hook annotation has a recognized event yields a matching hook in the
hook output. A surviving document whose hook annotation yields no
recognized event is dropped, appearing in neither output. -/
theorem sortManifests_partition (files : List InputFile)
    (vs ordering : List String) (xs : List (Sum Hook Manifest))
    (hs : List Hook) (g : List Manifest)
    (hcl : classifyAll files = .ok xs)
    (hsm : sortManifests files vs ordering = .ok (hs, g)) :
    hs.Perm (xs.filterMap Sum.getLeft?) ∧ g.Perm (xs.filterMap Sum.getRight?) ∧
    (∀ f ∈ files, startsWithUnderscore (baseName f.path.data) = false →
      ∀ d ∈ f.docs, (trim d.txt.data).isEmpty = false →
      ∀ sh, d.head = some sh →
      (lookupAnn sh.annotations hookAnno = none →
        Manifest.mk sh.name d.txt sh ∈ g) ∧
      (∀ hv, lookupAnn sh.annotations hookAnno = some hv →
        (parseHookEvents hv).isEmpty = false →
        ∃ hk ∈ hs, hk.path = f.path ∧ hk.name = sh.name ∧ hk.kind = sh.kind ∧
          hk.manifest = d.txt ∧ hk.events = parseHookEvents hv)) := by
  unfold sortManifests at hsm
  rw [hcl] at hsm
  simp only [Except.ok.injEq, Prod.mk.injEq] at hsm
  obtain ⟨hhs, hg⟩ := hsm
  subst hhs
  subst hg
  refine ⟨stableSortBy_perm _ _, stableSortBy_perm _ _, ?_⟩
  intro f hf hu d hd he sh hhead
  constructor
  · intro hha
    have hco := classifyOne_generic f.path d sh he hhead hha
    have hmem := mem_classifyAll files xs hcl f hf hu d hd _ hco
    have hmem2 : Manifest.mk sh.name d.txt sh ∈ xs.filterMap Sum.getRight? :=
      List.mem_filterMap.mpr ⟨_, hmem, rfl⟩
    exact ((stableSortBy_perm (manifestSortKey ordering)
      (xs.filterMap Sum.getRight?)).mem_iff).mpr hmem2
  · intro hv hha hev
    rcases classifyOne_hook_shape f.path d sh hv he hhead hha hev with
      ⟨e, herr⟩ | ⟨P, T, hco⟩
    · exact absurd herr (classifyAll_doc_ok files xs hcl f hf hu d hd e)
    · have hmem := mem_classifyAll files xs hcl f hf hu d hd _ hco
      have hmem2 : (Hook.mk f.path sh.name sh.kind d.txt
          (parseHookEvents hv) P T (parseHookWeight sh.annotations)) ∈
          xs.filterMap Sum.getLeft? :=
        List.mem_filterMap.mpr ⟨_, hmem, rfl⟩
      refine ⟨_, ((stableSortBy_perm (hookSortKey ordering)
        (xs.filterMap Sum.getLeft?)).mem_iff).mpr hmem2, rfl, rfl, rfl, rfl, rfl⟩

/-- Witness for the amended C1 at a concrete input: one generic Pod document
and one pre-install Job hook document; the Pod lands in the generic output
and the Job in the hook output. -/
theorem sortManifests_partition_witness :
    Manifest.mk "fourth" "doc-fourth"
        ⟨"v1", "Pod", "fourth", [("nothing", "here")]⟩ ∈
      [Manifest.mk "fourth" "doc-fourth"
        ⟨"v1", "Pod", "fourth", [("nothing", "here")]⟩] ∧
    ∃ hk ∈ [Hook.mk "one" "first" "Job" "doc-first"
        [HookEvent.preInstall] [] 0 0],
      hk.path = "one" ∧ hk.name = "first" ∧ hk.kind = "Job" ∧
      hk.manifest = "doc-first" ∧ hk.events = parseHookEvents "pre-install" := by
  have H := sortManifests_partition [exampleFourth, exampleFirst]
    exampleVersionSet InstallOrder
    [Sum.inr (Manifest.mk "fourth" "doc-fourth"
      ⟨"v1", "Pod", "fourth", [("nothing", "here")]⟩),
     Sum.inl (Hook.mk "one" "first" "Job" "doc-first"
      [HookEvent.preInstall] [] 0 0)]
    [Hook.mk "one" "first" "Job" "doc-first" [HookEvent.preInstall] [] 0 0]
    [Manifest.mk "fourth" "doc-fourth"
      ⟨"v1", "Pod", "fourth", [("nothing", "here")]⟩]
    rfl rfl
  obtain ⟨-, -, H3⟩ := H
  have Hf := H3 exampleFourth (by simp [exampleFourth]) (by decide)
    exampleFourthDoc (by simp [exampleFourth]) (by decide)
    ⟨"v1", "Pod", "fourth", [("nothing", "here")]⟩ rfl
  have Hh := H3 exampleFirst (by simp [exampleFiles, exampleFirst]) (by decide)
    ⟨"doc-first", some ⟨"v1", "Job", "first", [("helm.sh/hook", "pre-install")]⟩⟩
    (by simp [exampleFirst]) (by decide)
    ⟨"v1", "Job", "first", [("helm.sh/hook", "pre-install")]⟩ rfl
  exact ⟨Hf.1 (by decide), Hh.2 "pre-install" (by decide) (by decide)⟩

/-- C2: for every hook document parsed by the per-document classifier of
sortManifests (surviving text, parsed head, hook annotation yielding a
recognized event): with a delete-policy annotation and no delete-timeout
annotation the hook resolves to the fixed default timeout constant; with an
explicit delete-timeout annotation parsing to t it resolves to exactly t;
with no delete-policy annotation its DeleteTimeout is 0. -/
theorem classifyOne_deleteTimeout (path : String) (d : ManifestDoc)
    (sh : SimpleHead) (hv : String)
    (he : (trim d.txt.data).isEmpty = false) (hd : d.head = some sh)
    (hha : lookupAnn sh.annotations hookAnno = some hv)
    (hev : (parseHookEvents hv).isEmpty = false) :
    (∀ pv, lookupAnn sh.annotations hookDeleteAnno = some pv →
      lookupAnn sh.annotations hookDeleteTimeoutAnno = none →
      classifyOne path d = .ok (some (.inl ⟨path, sh.name, sh.kind, d.txt,
        parseHookEvents hv, parseHookDeletePolicies pv,
        defaultHookDeleteTimeoutInSeconds, parseHookWeight sh.annotations⟩))) ∧
    (∀ pv tv t, lookupAnn sh.annotations hookDeleteAnno = some pv →
      lookupAnn sh.annotations hookDeleteTimeoutAnno = some tv →
      parseInt (trim tv.data) = some t →
      classifyOne path d = .ok (some (.inl ⟨path, sh.name, sh.kind, d.txt,
        parseHookEvents hv, parseHookDeletePolicies pv, t,
        parseHookWeight sh.annotations⟩))) ∧
    (lookupAnn sh.annotations hookDeleteAnno = none →
      classifyOne path d = .ok (some (.inl ⟨path, sh.name, sh.kind, d.txt,
        parseHookEvents hv, [], 0, parseHookWeight sh.annotations⟩))) := by
  refine ⟨?_, ?_, ?_⟩
  · intro pv hpa hta
    simp [classifyOne, he, hd, hha, hev, hpa, hta]
  · intro pv tv t hpa hta hpi
    simp [classifyOne, he, hd, hha, hev, hpa, hta, hpi]
  · intro hpa
    simp [classifyOne, he, hd, hha, hev, hpa]

/-- Witness for C2 at the three crd-install fixtures of
TestSortManifestsHookDeletion: delete policy without timeout resolves to
the default constant, an explicit 420 resolves to 420, and no delete policy
resolves to 0. -/
theorem classifyOne_deleteTimeout_witness :
    classifyOne "exampleManifest" crdDocDefaultTimeout =
      .ok (some (.inl ⟨"exampleManifest", "example.com",
        "CustomResourceDefinition", "doc-crd-a", [HookEvent.crdInstall],
        [HookDeletePolicy.beforeHookCreation],
        defaultHookDeleteTimeoutInSeconds, 0⟩)) ∧
    classifyOne "exampleManifest" crdDocExplicitTimeout =
      .ok (some (.inl ⟨"exampleManifest", "example.com",
        "CustomResourceDefinition", "doc-crd-b", [HookEvent.crdInstall],
        [HookDeletePolicy.hookSucceeded], 420, 0⟩)) ∧
    classifyOne "exampleManifest" crdDocNoPolicy =
      .ok (some (.inl ⟨"exampleManifest", "example.com",
        "CustomResourceDefinition", "doc-crd-c", [HookEvent.crdInstall],
        [], 0, 0⟩)) := by
  refine ⟨?_, ?_, ?_⟩
  · exact (classifyOne_deleteTimeout "exampleManifest" crdDocDefaultTimeout
      ⟨"apiextensions.k8s.io/v1beta1", "CustomResourceDefinition",
        "example.com", [("helm.sh/hook", "crd-install"),
        ("helm.sh/hook-delete-policy", "before-hook-creation")]⟩
      "crd-install" (by decide) rfl (by decide) (by decide)).1
      "before-hook-creation" (by decide) (by decide)
  · exact (classifyOne_deleteTimeout "exampleManifest" crdDocExplicitTimeout
      ⟨"apiextensions.k8s.io/v1beta1", "CustomResourceDefinition",
        "example.com", [("helm.sh/hook", "crd-install"),
        ("helm.sh/hook-delete-policy", "hook-succeeded"),
        ("helm.sh/hook-delete-timeout", "420")]⟩
      "crd-install" (by decide) rfl (by decide) (by decide)).2.1
      "hook-succeeded" "420" 420 (by decide) (by decide) (by decide)
  · exact (classifyOne_deleteTimeout "exampleManifest" crdDocNoPolicy
      ⟨"apiextensions.k8s.io/v1beta1", "CustomResourceDefinition",
        "example.com", [("helm.sh/hook", "crd-install")]⟩
      "crd-install" (by decide) rfl (by decide) (by decide)).2.2 (by decide)

/-! ## Theorems: payload encoding roundtrips -/

theorem b64Val_b64Char : ∀ s, s < 64 → b64Val (b64Char s) = some s := by decide

theorem b64Char_ne_pad : ∀ s, s < 64 → b64Char s ≠ '=' := by decide

theorem b64Encode_ne_nil :
    ∀ bs : List Nat, bs ≠ [] → ∃ d ds, b64Encode bs = d :: ds
  | [], h => absurd rfl h
  | [_], _ => ⟨_, _, rfl⟩
  | [_, _], _ => ⟨_, _, rfl⟩
  | _ :: _ :: _ :: _, _ => ⟨_, _, rfl⟩

theorem b64_roundtrip : ∀ bs : List Nat, (∀ x ∈ bs, x < 256) →
    b64Decode (b64Encode bs) = some bs
  | [], _ => rfl
  | [a], h => by
    have ha : a < 256 := h a (by simp)
    simp only [b64Encode, b64Decode, b64DecodeChunk,
      b64Val_b64Char (a / 4) (by omega), b64Val_b64Char (a % 4 * 16) (by omega),
      if_pos rfl, if_true, Option.some.injEq, List.cons.injEq, and_true]
    omega
  | [a, b], h => by
    have ha : a < 256 := h a (by simp)
    have hb : b < 256 := h b (by simp)
    have h3 : b64Char (b % 16 * 4) ≠ '=' := b64Char_ne_pad _ (by omega)
    simp only [b64Encode, b64Decode, b64DecodeChunk,
      b64Val_b64Char (a / 4) (by omega),
      b64Val_b64Char (a % 4 * 16 + b / 16) (by omega),
      b64Val_b64Char (b % 16 * 4) (by omega),
      if_neg h3, if_pos rfl, if_true, Option.some.injEq, List.cons.injEq,
      and_true]
    omega
  | a :: b :: c :: rest, h => by
    have ha : a < 256 := h a (by simp)
    have hb : b < 256 := h b (by simp)
    have hc : c < 256 := h c (by simp)
    have h3 : b64Char (b % 16 * 4 + c / 64) ≠ '=' := b64Char_ne_pad _ (by omega)
    have h4 : b64Char (c % 64) ≠ '=' := b64Char_ne_pad _ (by omega)
    cases rest with
    | nil =>
      simp only [b64Encode, b64Decode, b64DecodeChunk,
        b64Val_b64Char (a / 4) (by omega),
        b64Val_b64Char (a % 4 * 16 + b / 16) (by omega),
        b64Val_b64Char (b % 16 * 4 + c / 64) (by omega),
        b64Val_b64Char (c % 64) (by omega),
        if_neg h3, if_neg h4, Option.some.injEq, List.cons.injEq, and_true]
      refine ⟨by omega, by omega, by omega⟩
    | cons r rs =>
      have ih := b64_roundtrip (r :: rs) (fun x hx => h x (by simp [hx]))
      obtain ⟨d, ds, henc⟩ := b64Encode_ne_nil (r :: rs) (by simp)
      rw [henc] at ih
      simp only [b64Encode, henc, b64Decode,
        b64Val_b64Char (a / 4) (by omega),
        b64Val_b64Char (a % 4 * 16 + b / 16) (by omega),
        b64Val_b64Char (b % 16 * 4 + c / 64) (by omega),
        b64Val_b64Char (c % 64) (by omega), ih,
        Option.some.injEq, List.cons.injEq, and_true]
      refine ⟨by omega, by omega, by omega⟩

theorem encNat32_bytes (n : Nat) : ∀ x ∈ encNat32 n, x < 256 := by
  intro x hx
  simp only [encNat32, List.mem_cons, List.not_mem_nil, or_false] at hx
  rcases hx with rfl | rfl | rfl | rfl <;> omega

theorem encString_bytes (s : String) : ∀ x ∈ encString s, x < 256 := by
  intro x hx
  simp only [encString, List.mem_append] at hx
  rcases hx with hx | hx
  · exact encNat32_bytes _ x hx
  · rw [List.mem_flatten] at hx
    obtain ⟨l, hl, hxl⟩ := hx
    rw [List.mem_map] at hl
    obtain ⟨c, _, rfl⟩ := hl
    exact encNat32_bytes _ x hxl

theorem statusNat_lt (st : Status) : statusNat st < 256 := by
  cases st <;> simp [statusNat]

theorem protoMarshal_bytes (r : Release) : ∀ x ∈ protoMarshal r, x < 256 := by
  intro x hx
  rw [protoMarshal] at hx
  rcases List.mem_cons.mp hx with rfl | hx
  · omega
  rcases List.mem_append.mp hx with hx | hx
  · rcases List.mem_append.mp hx with hx | hx
    · rcases List.mem_append.mp hx with hx | hx
      · rcases List.mem_append.mp hx with hx | hx
        · exact encString_bytes _ x hx
        · exact encString_bytes _ x hx
      · exact encString_bytes _ x hx
    · exact encNat32_bytes _ x hx
  · rcases List.mem_cons.mp hx with rfl | hx
    · exact statusNat_lt _
    · exact absurd hx (List.not_mem_nil x)

theorem statusOfNat_statusNat (st : Status) :
    statusOfNat (statusNat st) = some st := by
  cases st <;> rfl

theorem decChars_append :
    ∀ (cs : List Char) (rest : List Nat),
      decChars cs.length ((cs.map encChar).flatten ++ rest) = some (cs, rest)
  | [], _ => rfl
  | c :: cs, rest => by
    have hlt : c.toNat < 4294967296 := c.val.toNat_lt
    have harith : c.toNat % 256 + 256 * (c.toNat / 256 % 256) +
        65536 * (c.toNat / 65536 % 256) +
        16777216 * (c.toNat / 16777216 % 256) = c.toNat := by omega
    simp only [List.map_cons, List.flatten_cons, List.length_cons, encChar,
      encNat32, List.cons_append, List.nil_append, List.append_assoc]
    simp only [decChars, decChars_append cs rest, harith, Char.ofNat_toNat]

theorem decString_append (s : String) (rest : List Nat)
    (hlen : s.length < 4294967296) :
    decString (encString s ++ rest) = some (s, rest) := by
  have harith : s.length % 256 + 256 * (s.length / 256 % 256) +
      65536 * (s.length / 65536 % 256) +
      16777216 * (s.length / 16777216 % 256) = s.length := by omega
  have hlen2 : s.length = s.data.length := rfl
  simp only [encString, encNat32, List.cons_append, List.nil_append,
    List.append_assoc, decString, decNat32, harith]
  rw [hlen2, decChars_append s.data rest]

theorem protoUnmarshal_marshal (r : Release) (h : r.wf) :
    protoUnmarshal (protoMarshal r) = some r := by
  obtain ⟨h1, h2, h3, h4⟩ := h
  have harith : r.version % 256 + 256 * (r.version / 256 % 256) +
      65536 * (r.version / 65536 % 256) +
      16777216 * (r.version / 16777216 % 256) = r.version := by omega
  simp only [protoMarshal, List.cons_append, List.append_assoc, protoUnmarshal,
    decString_append r.name _ h1, decString_append r.nspace _ h2,
    decString_append r.manifest _ h3, encNat32, List.cons_append,
    List.nil_append, statusOfNat_statusNat, harith]

theorem hasGzipMagic_marshal (r : Release) :
    hasGzipMagic (protoMarshal r) = false := rfl

theorem decodeRelease_encode (r : Release) (h : r.wf) :
    decodeRelease (encodeRelease r) = some r := by
  unfold encodeRelease decodeRelease
  rw [b64_roundtrip]
  · simp [gzipCompress, hasGzipMagic, gzipDecompress, protoUnmarshal_marshal r h]
  · intro x hx
    simp only [gzipCompress, List.mem_cons] at hx
    rcases hx with rfl | rfl | hx
    · omega
    · omega
    · exact protoMarshal_bytes r x hx

theorem decodeRelease_legacy (r : Release) (h : r.wf) :
    decodeRelease (legacyEncodeRelease r) = some r := by
  unfold legacyEncodeRelease decodeRelease
  rw [b64_roundtrip _ (protoMarshal_bytes r)]
  simp [hasGzipMagic_marshal, protoUnmarshal_marshal r h]

/-! ## Theorems: the release storage contract (C3, C4, C5) -/

/-- C3: driverGet transparently decodes both payload encodings: a release
stored under a fresh key either as the gzip-plus-base64 compressed payload
or as the legacy uncompressed base64 payload is returned by Get equal to
the original release. -/
theorem driverGet_both_encodings (st : DriverState) (k : String) (r : Release)
    (hwf : r.wf) (hfree : List.find? (fun o => o.key == k) st = none) :
    driverGet (st ++ [⟨k, encodeRelease r⟩]) k = .ok r ∧
    driverGet (st ++ [⟨k, legacyEncodeRelease r⟩]) k = .ok r := by
  constructor <;>
  · unfold driverGet
    rw [List.find?_append, hfree, Option.none_or]
    simp [List.find?, decodeRelease_encode r hwf, decodeRelease_legacy r hwf]

/-- Witness for C3: the smug-pigeon release stored in both encodings. -/
theorem driverGet_both_encodings_witness :
    driverGet ([] ++ [⟨"smug-pigeon.v1", encodeRelease exampleRelease⟩])
      "smug-pigeon.v1" = .ok exampleRelease ∧
    driverGet ([] ++ [⟨"smug-pigeon.v1", legacyEncodeRelease exampleRelease⟩])
      "smug-pigeon.v1" = .ok exampleRelease :=
  driverGet_both_encodings [] "smug-pigeon.v1" exampleRelease (by decide) rfl

/-- C4: Create on a previously unoccupied key succeeds, appends the encoded
release, and a subsequent Get on that key returns the release unchanged. -/
theorem driverCreate_then_get (st : DriverState) (k : String) (r : Release)
    (hwf : r.wf) (hfree : List.find? (fun o => o.key == k) st = none) :
    driverCreate st k r = .ok (st ++ [⟨k, encodeRelease r⟩]) ∧
    driverGet (st ++ [⟨k, encodeRelease r⟩]) k = .ok r := by
  refine ⟨by simp [driverCreate, hfree], ?_⟩
  unfold driverGet
  rw [List.find?_append, hfree, Option.none_or]
  simp [List.find?, decodeRelease_encode r hwf]

/-- Witness for C4: creating the smug-pigeon release in an empty store and
reading it back. -/
theorem driverCreate_then_get_witness :
    driverCreate [] "smug-pigeon.v1" exampleRelease =
      .ok ([] ++ [⟨"smug-pigeon.v1", encodeRelease exampleRelease⟩]) ∧
    driverGet ([] ++ [⟨"smug-pigeon.v1", encodeRelease exampleRelease⟩])
      "smug-pigeon.v1" = .ok exampleRelease :=
  driverCreate_then_get [] "smug-pigeon.v1" exampleRelease (by decide) rfl

/-- C5: List returns exactly the stored releases satisfying the predicate:
a release is in the result precisely when some stored object decodes to it
and the predicate holds, and its multiplicity equals the number of such
stored objects (no duplicates introduced, no omissions); the result is a
pure function of the backend state, hence deterministic for a fixed state. -/
theorem driverList_spec (st : DriverState) (p : Release → Bool) (r : Release) :
    (r ∈ driverList st p ↔
      ((∃ o ∈ st, decodeRelease o.data = some r) ∧ p r = true)) ∧
    (driverList st p).count r =
      (if p r then st.countP (fun o => decodeRelease o.data == some r)
       else 0) := by
  constructor
  · rw [driverList, List.mem_filter, List.mem_filterMap]
  · rw [driverList]
    by_cases hp : p r = true
    · rw [if_pos hp, List.count_filter hp, List.count_filterMap]
    · rw [if_neg hp]
      refine List.count_eq_zero.mpr ?_
      intro hmem
      exact hp (List.mem_filter.mp hmem).2

/-! ## Theorems: startup storage selection (C8) and namespace (C9) -/

/-- C8 counterexample: the claim says every backend selection string outside
the supported set is rejected with a configuration error, yet the store
switch in start has no default case: on the concrete selection bogus,
startup proceeds with the storage left at its default initialization
instead of reporting an error. -/
theorem selectStorageBackend_unknown_store_proceeds :
    selectStorageBackend "bogus" "" = .proceed .keepDefault ∧
    supportedStores.contains "bogus" = false := ⟨rfl, rfl⟩

/-- C8 (amended): each supported backend selection configures its backend;
under object-store-tpr an unsupported provider string makes startup exit
with the Unknown provider configuration error; but a backend selection
string outside the supported set is not rejected: startup proceeds with the
storage left exactly as environment.New initialized it. -/
theorem selectStorageBackend_spec (store provider : String) :
    (store = "memory" →
      selectStorageBackend store provider = .proceed .memory) ∧
    (store = "configmap" →
      selectStorageBackend store provider = .proceed .configmap) ∧
    (store = "inline-tpr" →
      selectStorageBackend store provider = .proceed .inlineTPR) ∧
    (store = "object-store-tpr" →
      (supportedObjectStoreProviders.contains provider = true →
        selectStorageBackend store provider =
          .proceed (.objectStoreTPR provider)) ∧
      (supportedObjectStoreProviders.contains provider = false →
        selectStorageBackend store provider = .exitError "Unknown provider")) ∧
    (supportedStores.contains store = false →
      selectStorageBackend store provider = .proceed .keepDefault) := by
  refine ⟨?_, ?_, ?_, ?_, ?_⟩
  · intro h; subst h; rfl
  · intro h; subst h; rfl
  · intro h; subst h; rfl
  · intro h
    subst h
    constructor
    · intro hp
      have hm : provider ∈ supportedObjectStoreProviders := by simpa using hp
      simp [selectStorageBackend, hm]
    · intro hp
      have hm : provider ∉ supportedObjectStoreProviders := by simpa using hp
      simp [selectStorageBackend, hm]
  · intro h
    have h1 : store ≠ "memory" := by
      intro he; subst he; simp [supportedStores] at h
    have h2 : store ≠ "configmap" := by
      intro he; subst he; simp [supportedStores] at h
    have h3 : store ≠ "inline-tpr" := by
      intro he; subst he; simp [supportedStores] at h
    have h4 : store ≠ "object-store-tpr" := by
      intro he; subst he; simp [supportedStores] at h
    simp [selectStorageBackend, h1, h2, h3, h4]

/-- Witness for the amended C8: an unknown provider under object-store-tpr
exits with the configuration error, while an unknown backend selection
proceeds with the default-initialized storage. -/
theorem selectStorageBackend_spec_witness :
    selectStorageBackend "object-store-tpr" "ceph" =
      .exitError "Unknown provider" ∧
    selectStorageBackend "bogus" "s3" = .proceed .keepDefault :=
  ⟨((selectStorageBackend_spec "object-store-tpr" "ceph").2.2.2.1 rfl).2 rfl,
    (selectStorageBackend_spec "bogus" "s3").2.2.2.2 rfl⟩

/-- C9: the namespace resolution precedence of namespace in
cmd/tiller/tiller.go: a non-empty TILLER_NAMESPACE value is returned;
otherwise, readable service-account file contents whose trimmed text is
non-empty are returned trimmed; otherwise (file unreadable or trimmed to
empty) the default namespace constant is returned. -/
theorem namespaceResolve_spec (env : String) (file : Option String) :
    (env ≠ "" → namespaceResolve env file = env) ∧
    (env = "" → ∀ data, file = some data → trim data.data ≠ [] →
      namespaceResolve env file = ⟨trim data.data⟩) ∧
    (env = "" → file = none →
      namespaceResolve env file = DefaultTillerNamespace) ∧
    (env = "" → ∀ data, file = some data → trim data.data = [] →
      namespaceResolve env file = DefaultTillerNamespace) := by
  refine ⟨?_, ?_, ?_, ?_⟩
  · intro h
    simp [namespaceResolve, h]
  · intro h data hf hne
    subst h
    subst hf
    have hlen : 0 < (trim data.data).length := List.length_pos.mpr hne
    simp [namespaceResolve, hlen]
  · intro h hf
    subst h
    subst hf
    simp [namespaceResolve]
  · intro h data hf hemp
    subst h
    subst hf
    simp [namespaceResolve, hemp]

/-- Witness for C9: the environment variable wins when non-empty; otherwise
file contents are trimmed and used when non-empty; otherwise the default
namespace constant is returned. -/
theorem namespaceResolve_spec_witness :
    namespaceResolve "custom-ns" (some "other") = "custom-ns" ∧
    namespaceResolve "" (some " myns ") = ⟨trim " myns ".data⟩ ∧
    namespaceResolve "" none = DefaultTillerNamespace ∧
    namespaceResolve "" (some "  ") = DefaultTillerNamespace :=
  ⟨(namespaceResolve_spec "custom-ns" (some "other")).1 (by decide),
    (namespaceResolve_spec "" (some " myns ")).2.1 rfl " myns " rfl (by decide),
    (namespaceResolve_spec "" none).2.2.1 rfl rfl,
    (namespaceResolve_spec "" (some "  ")).2.2.2 rfl "  " rfl (by decide)⟩

/-! ## Theorems: gateway handlers (C10) -/

/-- C10: for every gateway operation whose route carries a name path
parameter (GetReleaseStatus, GetReleaseContent, UpdateRelease,
InstallRelease, UninstallRelease, RollbackRelease, GetHistory), a missing
name parameter makes the handler return an InvalidArgument error without
ever invoking the underlying RPC client, for every request body and query
parse outcome. -/
theorem gateway_missing_name (pathParams : List (String × String))
    (bodyOk queryOk : Bool)
    (hname : lookupParam pathParams "name" = none) :
    request_ReleaseService_GetReleaseStatus_0 pathParams =
      .noCall .invalidArgument ∧
    request_ReleaseService_GetReleaseContent_0 pathParams =
      .noCall .invalidArgument ∧
    request_ReleaseService_UpdateRelease_0 bodyOk pathParams =
      .noCall .invalidArgument ∧
    request_ReleaseService_InstallRelease_0 bodyOk pathParams =
      .noCall .invalidArgument ∧
    request_ReleaseService_UninstallRelease_0 queryOk pathParams =
      .noCall .invalidArgument ∧
    request_ReleaseService_RollbackRelease_0 queryOk pathParams =
      .noCall .invalidArgument ∧
    request_ReleaseService_GetHistory_0 queryOk pathParams =
      .noCall .invalidArgument := by
  cases bodyOk <;> cases queryOk <;>
    refine ⟨?_, ?_, ?_, ?_, ?_, ?_, ?_⟩ <;>
    simp [request_ReleaseService_GetReleaseStatus_0,
      request_ReleaseService_GetReleaseContent_0,
      request_ReleaseService_UpdateRelease_0,
      request_ReleaseService_InstallRelease_0,
      request_ReleaseService_UninstallRelease_0,
      request_ReleaseService_RollbackRelease_0,
      request_ReleaseService_GetHistory_0, hname]

/-- Witness for C10: path parameters holding only a version entry (no name),
with successfully decoded body and query parameters. -/
theorem gateway_missing_name_witness :
    request_ReleaseService_GetReleaseStatus_0 [("version", "1")] =
      .noCall .invalidArgument ∧
    request_ReleaseService_GetReleaseContent_0 [("version", "1")] =
      .noCall .invalidArgument ∧
    request_ReleaseService_UpdateRelease_0 true [("version", "1")] =
      .noCall .invalidArgument ∧
    request_ReleaseService_InstallRelease_0 true [("version", "1")] =
      .noCall .invalidArgument ∧
    request_ReleaseService_UninstallRelease_0 true [("version", "1")] =
      .noCall .invalidArgument ∧
    request_ReleaseService_RollbackRelease_0 true [("version", "1")] =
      .noCall .invalidArgument ∧
    request_ReleaseService_GetHistory_0 true [("version", "1")] =
      .noCall .invalidArgument :=
  gateway_missing_name [("version", "1")] true true (by decide)

end Helm
